import Mathlib

set_option maxHeartbeats 2000000

/-! Verification of the pyrove/vek small-vector geometry kernel.

The kernel itself is a native extension module (`pyrove_bind`); the repository
ships its Python test-suite, packaging and demo scripts.  The definitions below
are a shallow embedding of the kernel's data model and operations, modelled
from the specification and pinned, wherever the spec leaves a choice, by the
behaviour the repository's own tests assert.  Scalars are modelled exactly
(rational or real numbers in place of IEEE float/double); the float and double
precision variants of every type are structurally identical, so a single
definition generic over the scalar field covers both. -/

/-- Modelled from the spec: the two error kinds of the kernel (spec section 7):
bounds errors for out-of-range matrix element access, and computation errors
for singular-matrix inversion.  The native `mat.get`/`mat.set`/`mat.inverse`
are not under src/; only their tests are. -/
inductive KernelError where
  | bounds : KernelError
  | singular : KernelError
  | shape : KernelError
  deriving DecidableEq

/-- Modelled from the spec: `vec2` — two scalar components `x,y`
(spec section 3), generic over the scalar type to cover the float and double
precision variants (spec section 9). -/
structure vec2 (α : Type) where
  x : α
  y : α
  deriving DecidableEq

/-- Modelled from the spec: `vec3` — three scalar components `x,y,z`. -/
structure vec3 (α : Type) where
  x : α
  y : α
  z : α
  deriving DecidableEq

/-- Modelled from the spec: `vec4` — four scalar components `x,y,z,w`. -/
structure vec4 (α : Type) where
  x : α
  y : α
  z : α
  w : α
  deriving DecidableEq

/-- Modelled from the spec: `quat` — four scalars `x,y,z,w` (spec section 3). -/
structure quat (α : Type) where
  x : α
  y : α
  z : α
  w : α
  deriving DecidableEq

variable {α : Type} [Field α]

/-- Modelled from the spec: default construction of `vec2`; the repository's
tests (test_vec.py, TestVec2.test_default_constructor) pin all components to
exactly 0.0. -/
def vec2.default : vec2 α := ⟨0, 0⟩

/-- Modelled from the spec: default construction of `vec3`, zero-filled as the
tests assert. -/
def vec3.default : vec3 α := ⟨0, 0, 0⟩

/-- Modelled from the spec: default construction of `vec4`, zero-filled as the
tests assert. -/
def vec4.default : vec4 α := ⟨0, 0, 0, 0⟩

/-- Modelled from the spec: `vec3.length_sq` — sum of squared components. -/
def vec3.length_sq (v : vec3 α) : α := v.x * v.x + v.y * v.y + v.z * v.z

/-- Modelled from the spec: component-wise subtraction of `vec3`. -/
def vec3.sub (a b : vec3 α) : vec3 α := ⟨a.x - b.x, a.y - b.y, a.z - b.z⟩

/-- Modelled from the spec: component-wise addition of `vec3`. -/
def vec3.add (a b : vec3 α) : vec3 α := ⟨a.x + b.x, a.y + b.y, a.z + b.z⟩

/-- Modelled from the spec: `vec3` scaled by a scalar. -/
def vec3.smul (k : α) (v : vec3 α) : vec3 α := ⟨k * v.x, k * v.y, k * v.z⟩

/-- Modelled from the spec: `vec3.dot`. -/
def vec3.dot (a b : vec3 α) : α := a.x * b.x + a.y * b.y + a.z * b.z

/-- Modelled from the spec: `vec3.length` over the real scalar field,
`length() == sqrt(length_sq())` (spec section 3). -/
noncomputable def vec3.length (v : vec3 ℝ) : ℝ := Real.sqrt v.length_sq

/-- Modelled from the spec: `mat3` — 3x3 scalars stored column-major; the
field `dCR` is the stored element at column `C`, row `R`, i.e. the value
`get(C,R)` returns (spec section 3).  The native matrix type is not under
src/; only its tests are. -/
structure mat3 (α : Type) where
  d00 : α
  d01 : α
  d02 : α
  d10 : α
  d11 : α
  d12 : α
  d20 : α
  d21 : α
  d22 : α
  deriving DecidableEq

namespace mat3

/-- Modelled from the spec: `mat3.identity()` — diagonal 1, off-diagonal 0;
overwrites the full matrix state, so it is modelled as a plain constructor. -/
def identity : mat3 α := ⟨1, 0, 0, 0, 1, 0, 0, 0, 1⟩

/-- Modelled from the spec: `mat3.zero()` — all entries 0. -/
def zero : mat3 α := ⟨0, 0, 0, 0, 0, 0, 0, 0, 0⟩

/-- Modelled from the spec: `mat3.translation(x,y)` — overwrites the full
matrix state with a 2D translation transform; the tests pin the stored layout:
`get(2,0)=x`, `get(2,1)=y`, `get(2,2)=1`, upper-left identity
(test_mat.py, TestMat3.test_translation_scalar). -/
def translation (x y : α) : mat3 α := ⟨1, 0, 0, 0, 1, 0, x, y, 1⟩

/-- Modelled from the spec: `mat3.scaling(x,y)` — overwrites the full matrix
state with a 2D scaling transform: diagonal `(x, y, 1)`. -/
def scaling (x y : α) : mat3 α := ⟨x, 0, 0, 0, y, 0, 0, 0, 1⟩

/-- Modelled from the spec: `mat3.get(col,row)` — bounds-checked element
access; raises a bounds error for indices outside `[0,3)` (spec sections 4.2
and 7). -/
def get (m : mat3 α) (c r : ℤ) : Except KernelError α :=
  if c = 0 then
    if r = 0 then .ok m.d00 else if r = 1 then .ok m.d01
    else if r = 2 then .ok m.d02 else .error .bounds
  else if c = 1 then
    if r = 0 then .ok m.d10 else if r = 1 then .ok m.d11
    else if r = 2 then .ok m.d12 else .error .bounds
  else if c = 2 then
    if r = 0 then .ok m.d20 else if r = 1 then .ok m.d21
    else if r = 2 then .ok m.d22 else .error .bounds
  else .error .bounds

/-- Modelled from the spec: `mat3.set(col,row,value)` — bounds-checked element
update, returning the updated matrix state. -/
def set (m : mat3 α) (c r : ℤ) (v : α) : Except KernelError (mat3 α) :=
  if c = 0 then
    if r = 0 then .ok { m with d00 := v } else if r = 1 then .ok { m with d01 := v }
    else if r = 2 then .ok { m with d02 := v } else .error .bounds
  else if c = 1 then
    if r = 0 then .ok { m with d10 := v } else if r = 1 then .ok { m with d11 := v }
    else if r = 2 then .ok { m with d12 := v } else .error .bounds
  else if c = 2 then
    if r = 0 then .ok { m with d20 := v } else if r = 1 then .ok { m with d21 := v }
    else if r = 2 then .ok { m with d22 := v } else .error .bounds
  else .error .bounds

/-- Modelled from the spec: the matrix-matrix product `a * b`.  The stored
entries satisfy `(a*b).dCR = sum over k of a.dCk * b.dkR`, which is the
convention the repository's tests pin: `(A*B)` applied to a vector applies
`A`'s transform first, then `B`'s (test_mat.py,
TestMatrixMatrixOps.test_mat3_scaling_then_translation expects `(3,5)`, and
TestMat3.test_matrix_multiplication expects the translation column of
`scaling * translation` to stay `(1,1)`). -/
def mul (a b : mat3 α) : mat3 α :=
  ⟨a.d00 * b.d00 + a.d01 * b.d10 + a.d02 * b.d20,
   a.d00 * b.d01 + a.d01 * b.d11 + a.d02 * b.d21,
   a.d00 * b.d02 + a.d01 * b.d12 + a.d02 * b.d22,
   a.d10 * b.d00 + a.d11 * b.d10 + a.d12 * b.d20,
   a.d10 * b.d01 + a.d11 * b.d11 + a.d12 * b.d21,
   a.d10 * b.d02 + a.d11 * b.d12 + a.d12 * b.d22,
   a.d20 * b.d00 + a.d21 * b.d10 + a.d22 * b.d20,
   a.d20 * b.d01 + a.d21 * b.d11 + a.d22 * b.d21,
   a.d20 * b.d02 + a.d21 * b.d12 + a.d22 * b.d22⟩

/-- Modelled from the spec: the homogeneous matrix-vector overload
`mat3 * vec3` — no perspective divide (spec section 4.2); the tests pin the
component formula (test_mat.py, TestMatrixVectorOps.test_mat3_times_vec3). -/
def mulVec3 (m : mat3 α) (v : vec3 α) : vec3 α :=
  ⟨m.d00 * v.x + m.d10 * v.y + m.d20 * v.z,
   m.d01 * v.x + m.d11 * v.y + m.d21 * v.z,
   m.d02 * v.x + m.d12 * v.y + m.d22 * v.z⟩

/-- Modelled from the spec: the lower-dimension overload `mat3 * vec2` —
promotes the vector to homogeneous coordinates `(x,y,1)`, transforms, and
divides back by the homogeneous component before returning a `vec2`
(spec section 4.2). -/
def mulVec2 (m : mat3 α) (v : vec2 α) : vec2 α :=
  let h := m.mulVec3 ⟨v.x, v.y, 1⟩
  ⟨h.x / h.z, h.y / h.z⟩

/-- Modelled from the spec: `mat3.determinant()`. -/
def determinant (m : mat3 α) : α :=
  m.d00 * m.d11 * m.d22 + m.d10 * m.d21 * m.d02 + m.d20 * m.d01 * m.d12
    - m.d20 * m.d11 * m.d02 - m.d10 * m.d01 * m.d22 - m.d00 * m.d21 * m.d12

/-- Modelled from the spec: `mat3.trace()`. -/
def trace (m : mat3 α) : α := m.d00 + m.d11 + m.d22

/-- Modelled from the spec: `mat3.transpose()` — pure, returns a new matrix. -/
def transpose (m : mat3 α) : mat3 α :=
  ⟨m.d00, m.d10, m.d20, m.d01, m.d11, m.d21, m.d02, m.d12, m.d22⟩

/-- Modelled from the spec: `mat3.inverse()` — raises a computation error when
the matrix is singular (determinant zero in the exact model), otherwise
returns the adjugate divided by the determinant (spec sections 4.2 and 7). -/
def inverse [DecidableEq α] (m : mat3 α) : Except KernelError (mat3 α) :=
  if m.determinant = 0 then .error .singular
  else .ok
    ⟨(m.d11 * m.d22 - m.d12 * m.d21) / m.determinant,
     -(m.d01 * m.d22 - m.d02 * m.d21) / m.determinant,
     (m.d01 * m.d12 - m.d02 * m.d11) / m.determinant,
     -(m.d10 * m.d22 - m.d12 * m.d20) / m.determinant,
     (m.d00 * m.d22 - m.d02 * m.d20) / m.determinant,
     -(m.d00 * m.d12 - m.d02 * m.d10) / m.determinant,
     (m.d10 * m.d21 - m.d11 * m.d20) / m.determinant,
     -(m.d00 * m.d21 - m.d01 * m.d20) / m.determinant,
     (m.d00 * m.d11 - m.d01 * m.d10) / m.determinant⟩

/-- Modelled from the spec: `mat3.to_numpy()` — a 2D array in row-major
order; row `r` lists `get(0,r), get(1,r), get(2,r)`, transposing the
column-major storage (spec section 6). -/
def to_numpy (m : mat3 α) : List (List α) :=
  [[m.d00, m.d10, m.d20], [m.d01, m.d11, m.d21], [m.d02, m.d12, m.d22]]

/-- Modelled from the spec: `mat3.from_numpy()` — accepts a 2D row-major array
of shape 3x3 and builds the column-major storage; shape mismatches fail
(spec section 6). -/
def from_numpy (l : List (List α)) : Except KernelError (mat3 α) :=
  match l with
  | [[a00, a01, a02], [a10, a11, a12], [a20, a21, a22]] =>
      .ok ⟨a00, a10, a20, a01, a11, a21, a02, a12, a22⟩
  | _ => .error .shape

end mat3

/-- Modelled from the spec: `mat4` — 4x4 scalars stored column-major; field
`dCR` is the stored element at column `C`, row `R`, the value `get(C,R)`
returns. -/
structure mat4 (α : Type) where
  d00 : α
  d01 : α
  d02 : α
  d03 : α
  d10 : α
  d11 : α
  d12 : α
  d13 : α
  d20 : α
  d21 : α
  d22 : α
  d23 : α
  d30 : α
  d31 : α
  d32 : α
  d33 : α
  deriving DecidableEq

namespace mat4

/-- Modelled from the spec: `mat4.identity()` — overwrites the full matrix
state with the identity. -/
def identity : mat4 α := ⟨1,0,0,0, 0,1,0,0, 0,0,1,0, 0,0,0,1⟩

/-- Modelled from the spec: `mat4.zero()` — all entries 0. -/
def zero : mat4 α := ⟨0,0,0,0, 0,0,0,0, 0,0,0,0, 0,0,0,0⟩

/-- Modelled from the spec: `mat4.translation(x,y,z)` — overwrites the full
matrix state with a translation transform; the tests pin the layout
`get(3,0)=x`, `get(3,1)=y`, `get(3,2)=z` with upper-left identity
(test_mat.py, TestMat4.test_translation_scalar). -/
def translation (x y z : α) : mat4 α := ⟨1,0,0,0, 0,1,0,0, 0,0,1,0, x,y,z,1⟩

/-- Modelled from the spec: `mat4.scaling(x,y,z)` — overwrites the full matrix
state with the diagonal `(x,y,z,1)`. -/
def scaling (x y z : α) : mat4 α := ⟨x,0,0,0, 0,y,0,0, 0,0,z,0, 0,0,0,1⟩

/-- Modelled from the spec: `mat4.get(col,row)` — bounds-checked element
access; raises a bounds error for indices outside `[0,4)`. -/
def get (m : mat4 α) (c r : ℤ) : Except KernelError α :=
  if c = 0 then
    if r = 0 then .ok m.d00 else if r = 1 then .ok m.d01
    else if r = 2 then .ok m.d02 else if r = 3 then .ok m.d03 else .error .bounds
  else if c = 1 then
    if r = 0 then .ok m.d10 else if r = 1 then .ok m.d11
    else if r = 2 then .ok m.d12 else if r = 3 then .ok m.d13 else .error .bounds
  else if c = 2 then
    if r = 0 then .ok m.d20 else if r = 1 then .ok m.d21
    else if r = 2 then .ok m.d22 else if r = 3 then .ok m.d23 else .error .bounds
  else if c = 3 then
    if r = 0 then .ok m.d30 else if r = 1 then .ok m.d31
    else if r = 2 then .ok m.d32 else if r = 3 then .ok m.d33 else .error .bounds
  else .error .bounds

/-- Modelled from the spec: `mat4.set(col,row,value)` — bounds-checked element
update, returning the updated matrix state. -/
def set (m : mat4 α) (c r : ℤ) (v : α) : Except KernelError (mat4 α) :=
  if c = 0 then
    if r = 0 then .ok { m with d00 := v } else if r = 1 then .ok { m with d01 := v }
    else if r = 2 then .ok { m with d02 := v } else if r = 3 then .ok { m with d03 := v }
    else .error .bounds
  else if c = 1 then
    if r = 0 then .ok { m with d10 := v } else if r = 1 then .ok { m with d11 := v }
    else if r = 2 then .ok { m with d12 := v } else if r = 3 then .ok { m with d13 := v }
    else .error .bounds
  else if c = 2 then
    if r = 0 then .ok { m with d20 := v } else if r = 1 then .ok { m with d21 := v }
    else if r = 2 then .ok { m with d22 := v } else if r = 3 then .ok { m with d23 := v }
    else .error .bounds
  else if c = 3 then
    if r = 0 then .ok { m with d30 := v } else if r = 1 then .ok { m with d31 := v }
    else if r = 2 then .ok { m with d32 := v } else if r = 3 then .ok { m with d33 := v }
    else .error .bounds
  else .error .bounds

/-- Modelled from the spec: the matrix-matrix product `a * b`, same stored-entry
convention as `mat3.mul`: `(a*b).dCR = sum over k of a.dCk * b.dkR`, pinned by
the tests (test_mat.py, TestMat4.test_matrix_multiplication expects the
translation of `translation * scaling` to be scaled). -/
def mul (a b : mat4 α) : mat4 α :=
  ⟨a.d00 * b.d00 + a.d01 * b.d10 + a.d02 * b.d20 + a.d03 * b.d30,
   a.d00 * b.d01 + a.d01 * b.d11 + a.d02 * b.d21 + a.d03 * b.d31,
   a.d00 * b.d02 + a.d01 * b.d12 + a.d02 * b.d22 + a.d03 * b.d32,
   a.d00 * b.d03 + a.d01 * b.d13 + a.d02 * b.d23 + a.d03 * b.d33,
   a.d10 * b.d00 + a.d11 * b.d10 + a.d12 * b.d20 + a.d13 * b.d30,
   a.d10 * b.d01 + a.d11 * b.d11 + a.d12 * b.d21 + a.d13 * b.d31,
   a.d10 * b.d02 + a.d11 * b.d12 + a.d12 * b.d22 + a.d13 * b.d32,
   a.d10 * b.d03 + a.d11 * b.d13 + a.d12 * b.d23 + a.d13 * b.d33,
   a.d20 * b.d00 + a.d21 * b.d10 + a.d22 * b.d20 + a.d23 * b.d30,
   a.d20 * b.d01 + a.d21 * b.d11 + a.d22 * b.d21 + a.d23 * b.d31,
   a.d20 * b.d02 + a.d21 * b.d12 + a.d22 * b.d22 + a.d23 * b.d32,
   a.d20 * b.d03 + a.d21 * b.d13 + a.d22 * b.d23 + a.d23 * b.d33,
   a.d30 * b.d00 + a.d31 * b.d10 + a.d32 * b.d20 + a.d33 * b.d30,
   a.d30 * b.d01 + a.d31 * b.d11 + a.d32 * b.d21 + a.d33 * b.d31,
   a.d30 * b.d02 + a.d31 * b.d12 + a.d32 * b.d22 + a.d33 * b.d32,
   a.d30 * b.d03 + a.d31 * b.d13 + a.d32 * b.d23 + a.d33 * b.d33⟩

/-- Modelled from the spec: the in-place mutator `mat4.translate(x,y,z)` —
composes the existing transform with a translation applied after it; the tests
pin the behaviour: after `identity(); translate(1,2,3); scale(2,2,2)` the
stored translation is `(2,4,6)` (test_mat.py,
TestMatrixEdgeCases.test_translate_then_scale).  Returns the new matrix
state. -/
def translate (m : mat4 α) (x y z : α) : mat4 α := m.mul (translation x y z)

/-- Modelled from the spec: the in-place mutator `mat4.scale(x,y,z)` —
composes the existing transform with a scaling applied after it (same test as
`translate`).  Returns the new matrix state. -/
def scale (m : mat4 α) (x y z : α) : mat4 α := m.mul (scaling x y z)

/-- Modelled from the spec: the homogeneous overload `mat4 * vec4` — no
perspective divide (test_mat.py, TestMatrixVectorOps.test_mat4_times_vec4). -/
def mulVec4 (m : mat4 α) (v : vec4 α) : vec4 α :=
  ⟨m.d00 * v.x + m.d10 * v.y + m.d20 * v.z + m.d30 * v.w,
   m.d01 * v.x + m.d11 * v.y + m.d21 * v.z + m.d31 * v.w,
   m.d02 * v.x + m.d12 * v.y + m.d22 * v.z + m.d32 * v.w,
   m.d03 * v.x + m.d13 * v.y + m.d23 * v.z + m.d33 * v.w⟩

/-- Modelled from the spec: the lower-dimension overload `mat4 * vec3` —
promotes to homogeneous coordinates `(x,y,z,1)`, transforms, and divides back
by the homogeneous `w` component before returning a `vec3`
(spec section 4.2). -/
def mulVec3 (m : mat4 α) (v : vec3 α) : vec3 α :=
  let h := m.mulVec4 ⟨v.x, v.y, v.z, 1⟩
  ⟨h.x / h.w, h.y / h.w, h.z / h.w⟩

/-- Modelled from the spec: `mat4.determinant()`, written as the standard
expansion by complementary 2x2 minors. -/
def determinant (m : mat4 α) : α :=
  (m.d00 * m.d11 - m.d01 * m.d10) * (m.d22 * m.d33 - m.d23 * m.d32)
    - (m.d00 * m.d12 - m.d02 * m.d10) * (m.d21 * m.d33 - m.d23 * m.d31)
    + (m.d00 * m.d13 - m.d03 * m.d10) * (m.d21 * m.d32 - m.d22 * m.d31)
    + (m.d01 * m.d12 - m.d02 * m.d11) * (m.d20 * m.d33 - m.d23 * m.d30)
    - (m.d01 * m.d13 - m.d03 * m.d11) * (m.d20 * m.d32 - m.d22 * m.d30)
    + (m.d02 * m.d13 - m.d03 * m.d12) * (m.d20 * m.d31 - m.d21 * m.d30)

/-- Modelled from the spec: `mat4.trace()`. -/
def trace (m : mat4 α) : α := m.d00 + m.d11 + m.d22 + m.d33

/-- Modelled from the spec: `mat4.transpose()` — pure, returns a new matrix. -/
def transpose (m : mat4 α) : mat4 α :=
  ⟨m.d00, m.d10, m.d20, m.d30, m.d01, m.d11, m.d21, m.d31,
   m.d02, m.d12, m.d22, m.d32, m.d03, m.d13, m.d23, m.d33⟩

/-- Modelled from the spec: `mat4.inverse()` — raises a computation error when
the matrix is singular (determinant zero in the exact model), otherwise
returns the adjugate divided by the determinant, written with the standard
2x2-minor factorisation. -/
def inverse [DecidableEq α] (m : mat4 α) : Except KernelError (mat4 α) :=
  if m.determinant = 0 then .error .singular
  else .ok
    ⟨(m.d11 * (m.d22 * m.d33 - m.d23 * m.d32) - m.d12 * (m.d21 * m.d33 - m.d23 * m.d31) + m.d13 * (m.d21 * m.d32 - m.d22 * m.d31)) / m.determinant,
     (-m.d01 * (m.d22 * m.d33 - m.d23 * m.d32) + m.d02 * (m.d21 * m.d33 - m.d23 * m.d31) - m.d03 * (m.d21 * m.d32 - m.d22 * m.d31)) / m.determinant,
     (m.d31 * (m.d02 * m.d13 - m.d03 * m.d12) - m.d32 * (m.d01 * m.d13 - m.d03 * m.d11) + m.d33 * (m.d01 * m.d12 - m.d02 * m.d11)) / m.determinant,
     (-m.d21 * (m.d02 * m.d13 - m.d03 * m.d12) + m.d22 * (m.d01 * m.d13 - m.d03 * m.d11) - m.d23 * (m.d01 * m.d12 - m.d02 * m.d11)) / m.determinant,
     (-m.d10 * (m.d22 * m.d33 - m.d23 * m.d32) + m.d12 * (m.d20 * m.d33 - m.d23 * m.d30) - m.d13 * (m.d20 * m.d32 - m.d22 * m.d30)) / m.determinant,
     (m.d00 * (m.d22 * m.d33 - m.d23 * m.d32) - m.d02 * (m.d20 * m.d33 - m.d23 * m.d30) + m.d03 * (m.d20 * m.d32 - m.d22 * m.d30)) / m.determinant,
     (-m.d30 * (m.d02 * m.d13 - m.d03 * m.d12) + m.d32 * (m.d00 * m.d13 - m.d03 * m.d10) - m.d33 * (m.d00 * m.d12 - m.d02 * m.d10)) / m.determinant,
     (m.d20 * (m.d02 * m.d13 - m.d03 * m.d12) - m.d22 * (m.d00 * m.d13 - m.d03 * m.d10) + m.d23 * (m.d00 * m.d12 - m.d02 * m.d10)) / m.determinant,
     (m.d10 * (m.d21 * m.d33 - m.d23 * m.d31) - m.d11 * (m.d20 * m.d33 - m.d23 * m.d30) + m.d13 * (m.d20 * m.d31 - m.d21 * m.d30)) / m.determinant,
     (-m.d00 * (m.d21 * m.d33 - m.d23 * m.d31) + m.d01 * (m.d20 * m.d33 - m.d23 * m.d30) - m.d03 * (m.d20 * m.d31 - m.d21 * m.d30)) / m.determinant,
     (m.d30 * (m.d01 * m.d13 - m.d03 * m.d11) - m.d31 * (m.d00 * m.d13 - m.d03 * m.d10) + m.d33 * (m.d00 * m.d11 - m.d01 * m.d10)) / m.determinant,
     (-m.d20 * (m.d01 * m.d13 - m.d03 * m.d11) + m.d21 * (m.d00 * m.d13 - m.d03 * m.d10) - m.d23 * (m.d00 * m.d11 - m.d01 * m.d10)) / m.determinant,
     (-m.d10 * (m.d21 * m.d32 - m.d22 * m.d31) + m.d11 * (m.d20 * m.d32 - m.d22 * m.d30) - m.d12 * (m.d20 * m.d31 - m.d21 * m.d30)) / m.determinant,
     (m.d00 * (m.d21 * m.d32 - m.d22 * m.d31) - m.d01 * (m.d20 * m.d32 - m.d22 * m.d30) + m.d02 * (m.d20 * m.d31 - m.d21 * m.d30)) / m.determinant,
     (-m.d30 * (m.d01 * m.d12 - m.d02 * m.d11) + m.d31 * (m.d00 * m.d12 - m.d02 * m.d10) - m.d32 * (m.d00 * m.d11 - m.d01 * m.d10)) / m.determinant,
     (m.d20 * (m.d01 * m.d12 - m.d02 * m.d11) - m.d21 * (m.d00 * m.d12 - m.d02 * m.d10) + m.d22 * (m.d00 * m.d11 - m.d01 * m.d10)) / m.determinant⟩

/-- Modelled from the spec: `mat4.to_numpy()` — 2D row-major array; row `r`
lists `get(0,r) .. get(3,r)`, transposing the column-major storage. -/
def to_numpy (m : mat4 α) : List (List α) :=
  [[m.d00, m.d10, m.d20, m.d30], [m.d01, m.d11, m.d21, m.d31],
   [m.d02, m.d12, m.d22, m.d32], [m.d03, m.d13, m.d23, m.d33]]

/-- Modelled from the spec: `mat4.from_numpy()` — accepts a 4x4 row-major
array and builds the column-major storage; shape mismatches fail. -/
def from_numpy (l : List (List α)) : Except KernelError (mat4 α) :=
  match l with
  | [[a00, a01, a02, a03], [a10, a11, a12, a13],
     [a20, a21, a22, a23], [a30, a31, a32, a33]] =>
      .ok ⟨a00, a10, a20, a30, a01, a11, a21, a31,
           a02, a12, a22, a32, a03, a13, a23, a33⟩
  | _ => .error .shape

end mat4

namespace quat

/-- Modelled from the spec: `quat.norm_sq` — sum of squared components. -/
def norm_sq (q : quat α) : α := q.x * q.x + q.y * q.y + q.z * q.z + q.w * q.w

/-- Modelled from the spec: `quat.dot` — component-wise dot product
(test_quat.py, TestQuaternion.test_dot_product). -/
def dot (a b : quat α) : α := a.x * b.x + a.y * b.y + a.z * b.z + a.w * b.w

/-- Modelled from the spec: `quat.scale(k)` — every component multiplied by
`k`; returns the new receiver state. -/
def scale (q : quat α) (k : α) : quat α := ⟨q.x * k, q.y * k, q.z * k, q.w * k⟩

/-- Modelled from the spec: unary negation of a quaternion. -/
def neg (q : quat α) : quat α := ⟨-q.x, -q.y, -q.z, -q.w⟩

/-- Modelled from the spec: quaternion addition. -/
def add (a b : quat α) : quat α := ⟨a.x + b.x, a.y + b.y, a.z + b.z, a.w + b.w⟩

/-- Modelled from the spec: `quat.norm()` — Euclidean norm over the real
scalar field. -/
noncomputable def norm (q : quat ℝ) : ℝ := Real.sqrt q.norm_sq

/-- Modelled from the spec: the in-place `quat.normalize()` — scales the
receiver to unit length; the function returns the new receiver state
(spec section 3: `normalize()` mutates in place). -/
noncomputable def normalize (q : quat ℝ) : quat ℝ := q.scale q.norm⁻¹

/-- Modelled from the spec: the pure `quat.normalized()` — returns the pair
(returned quaternion, receiver state after the call); the receiver is not
mutated, so the second component is the receiver itself
(spec section 3: `normalized()` returns a new unit quaternion without
mutating the receiver). -/
noncomputable def normalized (q : quat ℝ) : quat ℝ × quat ℝ :=
  (q.scale q.norm⁻¹, q)

end quat

/-- Modelled from the spec: the core spherical interpolation formula between
two endpoints already brought onto the same arc — the standard `sin`-weighted
combination with the angle `arccos` of the endpoints' dot product
(spec glossary: slerp). -/
noncomputable def slerpRaw (q1 e : quat ℝ) (t : ℝ) : quat ℝ :=
  (q1.scale (Real.sin ((1 - t) * Real.arccos (q1.dot e)) /
      Real.sin (Real.arccos (q1.dot e)))).add
    (e.scale (Real.sin (t * Real.arccos (q1.dot e)) /
      Real.sin (Real.arccos (q1.dot e))))

/-- Modelled from the spec: `slerp(q1,q2,t)` — spherical linear interpolation
over the shortest arc (spec sections 3, 4.3 and 9): when the dot product of
the endpoints is negative the second endpoint is negated (shortest-arc
convention), and when the endpoints are parallel the first endpoint is
returned; otherwise the `sin`-weighted combination `slerpRaw` is used. -/
noncomputable def slerp (q1 q2 : quat ℝ) (t : ℝ) : quat ℝ :=
  if q1.dot q2 < 0 then
    if 1 ≤ -(q1.dot q2) then q1 else slerpRaw q1 q2.neg t
  else
    if 1 ≤ q1.dot q2 then q1 else slerpRaw q1 q2 t

/-- Modelled from the spec: the stateful `quat_slerper` interpolator object —
caches the two endpoints so repeated evaluation at different parameters avoids
recomputation (spec section 3). -/
structure quat_slerper where
  q1 : quat ℝ
  q2 : quat ℝ

namespace quat_slerper

/-- Modelled from the spec: `quat_slerper.setup(q1,q2)` — stores the
endpoints; returns the new interpolator state. -/
def setup (_s : quat_slerper) (a b : quat ℝ) : quat_slerper := ⟨a, b⟩

/-- Modelled from the spec: `quat_slerper.interpolate(t)` — evaluates the
cached slerp at parameter `t`. -/
noncomputable def interpolate (s : quat_slerper) (t : ℝ) : quat ℝ :=
  slerp s.q1 s.q2 t

end quat_slerper

/-- Modelled from the spec: `line3` — a finite segment between two points
`A` and `B` (spec section 3); field names pinned by test_capsule.py
(`cap.axe.A`, `cap.axe.B`). -/
structure line3 (α : Type) where
  A : vec3 α
  B : vec3 α
  deriving DecidableEq

/-- Modelled from the spec: distance from a point to a finite segment
(spec section 4.4): project the point onto the line, clamp the parameter to
`[0,1]`, and return the Euclidean distance to the clamped closest point. -/
noncomputable def line3.distance (l : line3 ℝ) (p : vec3 ℝ) : ℝ :=
  let ab := l.B.sub l.A
  let t := (p.sub l.A).dot ab / ab.length_sq
  let tc := max 0 (min 1 t)
  ((p.sub (l.A.add (vec3.smul tc ab)))).length

/-- Modelled from the spec: `capsule3` — an axis segment (`axe`) and a
`radius` (spec section 3). -/
structure capsule3 (α : Type) where
  axe : line3 α
  radius : α
  deriving DecidableEq

/-- Modelled from the spec: `capsule3.contains(point)` — true when the
distance from the point to the axis segment is at most the radius
(spec section 4.4). -/
noncomputable def capsule3.contains (c : capsule3 ℝ) (p : vec3 ℝ) : Prop :=
  c.axe.distance p ≤ c.radius

/-- Modelled from the spec: `capsule3.distance(point)` =
`max(0, distance-to-axis - radius)` (spec section 4.4). -/
noncomputable def capsule3.distance (c : capsule3 ℝ) (p : vec3 ℝ) : ℝ :=
  max 0 (c.axe.distance p - c.radius)

/-- Modelled from the spec: `ray2` — origin `r0` and direction `a`
(field names pinned by test_ray.py); the default constructor zero-fills both,
as TestRay2.test_default_constructor asserts. -/
structure ray2 (α : Type) where
  r0 : vec2 α
  a : vec2 α
  deriving DecidableEq

/-- Modelled from the spec: `ray3` — origin `r0` and direction `a`. -/
structure ray3 (α : Type) where
  r0 : vec3 α
  a : vec3 α
  deriving DecidableEq

/-- Modelled from the spec: default construction of `ray2`, zero-filled as
the tests assert. -/
def ray2.default : ray2 α := ⟨vec2.default, vec2.default⟩

/-- Modelled from the spec: default construction of `ray3`, zero-filled as
the tests assert. -/
def ray3.default : ray3 α := ⟨vec3.default, vec3.default⟩

/-- Modelled from the spec: `triangle3` — three vertices `A`, `B`, `C`
(spec section 3). -/
structure triangle3 (α : Type) where
  A : vec3 α
  B : vec3 α
  C : vec3 α
  deriving DecidableEq

/-- Modelled from the spec: default construction of `triangle3`, zero-filled
as the tests assert (test_triangle.py, TestTriangle3.test_default_constructor). -/
def triangle3.default : triangle3 α := ⟨vec3.default, vec3.default, vec3.default⟩

/-- Modelled from the spec: `vec2.to_numpy()` — flat array `[x, y]`. -/
def vec2.to_numpy (v : vec2 α) : List α := [v.x, v.y]

/-- Modelled from the spec: `vec2.from_numpy()` — accepts a flat array of
length 2; shape mismatches fail. -/
def vec2.from_numpy (l : List α) : Except KernelError (vec2 α) :=
  match l with
  | [a, b] => .ok ⟨a, b⟩
  | _ => .error .shape

/-- Modelled from the spec: `vec3.to_numpy()` — flat array `[x, y, z]`. -/
def vec3.to_numpy (v : vec3 α) : List α := [v.x, v.y, v.z]

/-- Modelled from the spec: `vec3.from_numpy()` — accepts a flat array of
length 3; shape mismatches fail. -/
def vec3.from_numpy (l : List α) : Except KernelError (vec3 α) :=
  match l with
  | [a, b, c] => .ok ⟨a, b, c⟩
  | _ => .error .shape

/-- Modelled from the spec: `vec4.to_numpy()` — flat array `[x, y, z, w]`. -/
def vec4.to_numpy (v : vec4 α) : List α := [v.x, v.y, v.z, v.w]

/-- Modelled from the spec: `vec4.from_numpy()` — accepts a flat array of
length 4; shape mismatches fail. -/
def vec4.from_numpy (l : List α) : Except KernelError (vec4 α) :=
  match l with
  | [a, b, c, d] => .ok ⟨a, b, c, d⟩
  | _ => .error .shape

/-- Modelled from the spec: `quat.to_numpy()` — flat array `[x, y, z, w]`. -/
def quat.to_numpy (q : quat α) : List α := [q.x, q.y, q.z, q.w]

/-- Modelled from the spec: `quat.from_numpy()` — accepts a flat array of
length 4; shape mismatches fail. -/
def quat.from_numpy (l : List α) : Except KernelError (quat α) :=
  match l with
  | [a, b, c, d] => .ok ⟨a, b, c, d⟩
  | _ => .error .shape

/-- Claim C1 counterexample: the claim's composition order fails at a concrete
input.  With A = scaling(2,3), B = translation(1,2) and v = (1,1,1), the code
gives (A*B)*v = (3,5,1) (scale first, then translate) while A*(B*v) = (4,9,1),
so (A*B)*v is not A*(B*v). -/
theorem ce_C1 :
    ¬ (((mat3.scaling (2:ℚ) 3).mul (mat3.translation 1 2)).mulVec3 ⟨1, 1, 1⟩ =
      (mat3.scaling (2:ℚ) 3).mulVec3 ((mat3.translation 1 2).mulVec3 ⟨1, 1, 1⟩)) := by
  norm_num [mat3.mul, mat3.mulVec3, mat3.scaling, mat3.translation, vec3.mk.injEq]

/-- Claim C1 (amended): matrix multiplication composes in application order —
`(A*B)` applied to a vector applies A's transform first, then B's,
so `(A*B)*v = B*(A*v)` for the homogeneous matrix-vector overloads of both
mat3 and mat4, exactly in the exact-arithmetic model. -/
theorem C1_amended :
    ∀ (A B : mat3 α) (v : vec3 α) (A4 B4 : mat4 α) (w : vec4 α),
      (A.mul B).mulVec3 v = B.mulVec3 (A.mulVec3 v) ∧
      (A4.mul B4).mulVec4 w = B4.mulVec4 (A4.mulVec4 w) := by
  intro A B v A4 B4 w
  constructor
  · simp only [mat3.mul, mat3.mulVec3, vec3.mk.injEq]
    refine ⟨by ring, by ring, by ring⟩
  · simp only [mat4.mul, mat4.mulVec4, vec4.mk.injEq]
    refine ⟨by ring, by ring, by ring, by ring⟩

/-- Claim C2 counterexample: building a mat4 via the construction helpers
`translation(1,2,3)` then `scaling(2,2,2)` — each of which overwrites the full
matrix state, as the spec says — leaves the stored translation components at
(0,0,0), not (2,4,6): the final `scaling` call erases the translation. -/
theorem ce_C2 :
    ((mat4.scaling (2:ℚ) 2 2).get 3 0 = .ok 0 ∧
     (mat4.scaling (2:ℚ) 2 2).get 3 1 = .ok 0 ∧
     (mat4.scaling (2:ℚ) 2 2).get 3 2 = .ok 0) ∧
    ¬ ((mat4.scaling (2:ℚ) 2 2).get 3 0 = .ok 2) := by
  norm_num [mat4.get, mat4.scaling]

/-- Claim C2 (amended): a mat4 built via the in-place composing mutators
`translate(1,2,3)` then `scale(2,2,2)` (the methods the cited test actually
calls) has stored translation (2,4,6): `get(3,0)=2`, `get(3,1)=4`,
`get(3,2)=6`. -/
theorem C2_amended :
    (((mat4.identity : mat4 ℚ).translate 1 2 3).scale 2 2 2).get 3 0 = .ok 2 ∧
    (((mat4.identity : mat4 ℚ).translate 1 2 3).scale 2 2 2).get 3 1 = .ok 4 ∧
    (((mat4.identity : mat4 ℚ).translate 1 2 3).scale 2 2 2).get 3 2 = .ok 6 := by
  norm_num [mat4.translate, mat4.scale, mat4.mul, mat4.identity, mat4.translation,
    mat4.scaling, mat4.get]

/-- Claim C3: multiplying a matM by a vector of dimension M-1 promotes the
vector to homogeneous coordinates, transforms, and divides by the homogeneous
component before returning the (M-1)-dimensional result, while the
M-dimensional overload performs no division; concretely, mat3 translation(2,3)
times vec2(1,1) is (3,4) and mat4 translation(1,2,3) times vec3(1,1,1) is
(2,3,4). -/
theorem C3_homogeneous_mul :
    (∀ (m : mat3 α) (v : vec2 α),
      m.mulVec2 v =
        ⟨(m.mulVec3 ⟨v.x, v.y, 1⟩).x / (m.mulVec3 ⟨v.x, v.y, 1⟩).z,
         (m.mulVec3 ⟨v.x, v.y, 1⟩).y / (m.mulVec3 ⟨v.x, v.y, 1⟩).z⟩) ∧
    (∀ (m : mat4 α) (v : vec3 α),
      m.mulVec3 v =
        ⟨(m.mulVec4 ⟨v.x, v.y, v.z, 1⟩).x / (m.mulVec4 ⟨v.x, v.y, v.z, 1⟩).w,
         (m.mulVec4 ⟨v.x, v.y, v.z, 1⟩).y / (m.mulVec4 ⟨v.x, v.y, v.z, 1⟩).w,
         (m.mulVec4 ⟨v.x, v.y, v.z, 1⟩).z / (m.mulVec4 ⟨v.x, v.y, v.z, 1⟩).w⟩) ∧
    ((mat3.translation (2:ℚ) 3).mulVec2 ⟨1, 1⟩ = ⟨3, 4⟩) ∧
    ((mat4.translation (1:ℚ) 2 3).mulVec3 ⟨1, 1, 1⟩ = ⟨2, 3, 4⟩) := by
  refine ⟨fun m v => rfl, fun m v => rfl, ?_, ?_⟩
  · norm_num [mat3.mulVec2, mat3.mulVec3, mat3.translation, vec2.mk.injEq]
  · norm_num [mat4.mulVec3, mat4.mulVec4, mat4.translation, vec3.mk.injEq]

/-- Claim C7: `to_numpy` of a matrix is the row-major transpose of the
column-major storage — `arr[row][col] = get(col,row)` for all in-range
indices — and `from_numpy (to_numpy x) = x` holds for vec2/vec3/vec4,
mat3/mat4 and quat; the statement is generic over the scalar field, covering
the float and double precision variants at once. -/
theorem C7_numpy_roundtrip :
    (∀ (m : mat3 α) (r c : Fin 3),
      m.get c.val r.val = .ok ((m.to_numpy.getD r.val []).getD c.val 0)) ∧
    (∀ (m : mat4 α) (r c : Fin 4),
      m.get c.val r.val = .ok ((m.to_numpy.getD r.val []).getD c.val 0)) ∧
    (∀ m : mat3 α, mat3.from_numpy m.to_numpy = .ok m) ∧
    (∀ m : mat4 α, mat4.from_numpy m.to_numpy = .ok m) ∧
    (∀ v : vec2 α, vec2.from_numpy v.to_numpy = .ok v) ∧
    (∀ v : vec3 α, vec3.from_numpy v.to_numpy = .ok v) ∧
    (∀ v : vec4 α, vec4.from_numpy v.to_numpy = .ok v) ∧
    (∀ q : quat α, quat.from_numpy q.to_numpy = .ok q) := by
  refine ⟨?_, ?_, fun m => rfl, fun m => rfl, fun v => rfl, fun v => rfl,
    fun v => rfl, fun q => rfl⟩
  · intro m r c
    fin_cases r <;> fin_cases c <;> rfl
  · intro m r c
    fin_cases r <;> fin_cases c <;> rfl

/-- Claim C10: default construction of vec2/vec3/vec4, ray2/ray3 and
triangle3 zero-fills every numeric component, and the default vec3 has
length 0. -/
theorem C10_default_zero :
    (vec2.default : vec2 ℝ) = ⟨0, 0⟩ ∧
    (vec3.default : vec3 ℝ) = ⟨0, 0, 0⟩ ∧
    (vec4.default : vec4 ℝ) = ⟨0, 0, 0, 0⟩ ∧
    (ray2.default : ray2 ℝ) = ⟨⟨0, 0⟩, ⟨0, 0⟩⟩ ∧
    (ray3.default : ray3 ℝ) = ⟨⟨0, 0, 0⟩, ⟨0, 0, 0⟩⟩ ∧
    (triangle3.default : triangle3 ℝ) = ⟨⟨0, 0, 0⟩, ⟨0, 0, 0⟩, ⟨0, 0, 0⟩⟩ ∧
    (vec3.default : vec3 ℝ).length = 0 := by
  refine ⟨rfl, rfl, rfl, rfl, rfl, rfl, ?_⟩
  simp [vec3.length, vec3.length_sq, vec3.default]


/-- Claim C4: for both matrix sizes, `get(col,row)` and `set(col,row,value)`
succeed exactly when both indices lie in `[0,M)` and raise a bounds error
otherwise, and a successful `set` followed by `get` at the same position
returns the stored value. -/
theorem C4_bounds :
    (∀ (m : mat3 α) (c r : ℤ), (m.get c r).isOk = true ↔ 0 ≤ c ∧ c < 3 ∧ 0 ≤ r ∧ r < 3) ∧
    (∀ (m : mat3 α) (c r : ℤ) (v : α),
      (m.set c r v).isOk = true ↔ 0 ≤ c ∧ c < 3 ∧ 0 ≤ r ∧ r < 3) ∧
    (∀ (m : mat3 α) (c r : ℤ) (v : α) (m2 : mat3 α),
      m.set c r v = .ok m2 → m2.get c r = .ok v) ∧
    (∀ (m : mat4 α) (c r : ℤ), (m.get c r).isOk = true ↔ 0 ≤ c ∧ c < 4 ∧ 0 ≤ r ∧ r < 4) ∧
    (∀ (m : mat4 α) (c r : ℤ) (v : α),
      (m.set c r v).isOk = true ↔ 0 ≤ c ∧ c < 4 ∧ 0 ≤ r ∧ r < 4) ∧
    (∀ (m : mat4 α) (c r : ℤ) (v : α) (m2 : mat4 α),
      m.set c r v = .ok m2 → m2.get c r = .ok v) := by
  refine ⟨?_, ?_, ?_, ?_, ?_, ?_⟩
  · intro m c r
    unfold mat3.get
    split_ifs <;> simp [Except.isOk, Except.toBool] <;> omega
  · intro m c r v
    unfold mat3.set
    split_ifs <;> simp [Except.isOk, Except.toBool] <;> omega
  · intro m c r v m2 h
    unfold mat3.set at h
    unfold mat3.get
    split_ifs at h ⊢ <;>
      first
        | (rw [Except.ok.injEq] at h; subst h; rfl)
        | simp at h
  · intro m c r
    unfold mat4.get
    split_ifs <;> simp [Except.isOk, Except.toBool] <;> omega
  · intro m c r v
    unfold mat4.set
    split_ifs <;> simp [Except.isOk, Except.toBool] <;> omega
  · intro m c r v m2 h
    unfold mat4.set at h
    unfold mat4.get
    split_ifs at h ⊢ <;>
      first
        | (rw [Except.ok.injEq] at h; subst h; rfl)
        | simp at h

/-- Claim C5: `inverse()` raises a computation error exactly when the matrix
is singular (determinant zero in the exact model, e.g. the zero matrix), and
for every non-singular matrix the returned inverse satisfies
`M * M.inverse() = identity` exactly; the receiver is left unchanged, which
the embedding models structurally (`inverse` returns a new matrix). -/
theorem C5_inverse [DecidableEq α] :
    (∀ m : mat3 α,
      (m.inverse = .error .singular ↔ m.determinant = 0) ∧
      (∀ mi, m.inverse = .ok mi → m.mul mi = mat3.identity)) ∧
    (∀ m : mat4 α,
      (m.inverse = .error .singular ↔ m.determinant = 0) ∧
      (∀ mi, m.inverse = .ok mi → m.mul mi = mat4.identity)) ∧
    ((mat4.zero : mat4 ℚ).inverse = .error .singular) := by
  refine ⟨?_, ?_, ?_⟩
  · intro m
    constructor
    · unfold mat3.inverse
      split_ifs with hd <;> simp [hd]
    · intro mi h
      unfold mat3.inverse at h
      split_ifs at h with hd
      rw [Except.ok.injEq] at h
      subst h
      have hd : m.determinant ≠ 0 := hd
      unfold mat3.determinant at hd ⊢
      unfold mat3.mul mat3.identity
      simp only [mat3.mk.injEq]
      refine ⟨?_, ?_, ?_, ?_, ?_, ?_, ?_, ?_, ?_⟩ <;> field_simp <;> ring
  · intro m
    constructor
    · unfold mat4.inverse
      split_ifs with hd <;> simp [hd]
    · intro mi h
      unfold mat4.inverse at h
      split_ifs at h with hd
      rw [Except.ok.injEq] at h
      subst h
      have hd : m.determinant ≠ 0 := hd
      unfold mat4.determinant at hd ⊢
      unfold mat4.mul mat4.identity
      simp only [mat4.mk.injEq]
      refine ⟨?_, ?_, ?_, ?_, ?_, ?_, ?_, ?_, ?_, ?_, ?_, ?_, ?_, ?_, ?_, ?_⟩ <;>
        field_simp <;> ring
  · norm_num [mat4.inverse, mat4.zero, mat4.determinant]

/-- The squared norm of a quaternion is nonnegative. -/
theorem quat.norm_sq_nonneg (q : quat ℝ) : 0 ≤ q.norm_sq := by
  unfold quat.norm_sq
  nlinarith [mul_self_nonneg q.x, mul_self_nonneg q.y, mul_self_nonneg q.z,
    mul_self_nonneg q.w]

/-- Scaling a quaternion scales its norm by the absolute value of the
factor. -/
theorem quat.norm_scale (q : quat ℝ) (k : ℝ) : (q.scale k).norm = q.norm * |k| := by
  have hnn := q.norm_sq_nonneg
  unfold quat.norm_sq at hnn
  unfold quat.norm quat.scale quat.norm_sq
  have h : q.x * k * (q.x * k) + q.y * k * (q.y * k) + q.z * k * (q.z * k) +
      q.w * k * (q.w * k) =
      (q.x * q.x + q.y * q.y + q.z * q.z + q.w * q.w) * k ^ 2 := by ring
  rw [h, Real.sqrt_mul hnn, Real.sqrt_sq_eq_abs]

/-- Claim C9: for every quaternion of nonzero norm, `normalized()` returns a
new quaternion of norm 1 while leaving the receiver unchanged, and
`normalize()` brings the receiver state to norm 1. -/
theorem C9_normalize :
    ∀ q : quat ℝ, q.norm ≠ 0 →
      q.normalized.2 = q ∧ q.normalized.1.norm = 1 ∧ q.normalize.norm = 1 := by
  intro q h
  have hnn : 0 ≤ q.norm := by
    unfold quat.norm
    exact Real.sqrt_nonneg _
  have hk : (q.scale q.norm⁻¹).norm = 1 := by
    rw [quat.norm_scale, abs_inv, abs_of_nonneg hnn, mul_inv_cancel₀ h]
  exact ⟨rfl, hk, hk⟩

/-- Claim C9 witness: the normalization laws instantiated at the concrete
quaternion (0,0,0,2), whose norm 2 is nonzero. -/
theorem C9_witness :
    (quat.norm ⟨0, 0, 0, 2⟩ ≠ 0) ∧
    ((quat.normalized ⟨0, 0, 0, 2⟩).2 = ⟨0, 0, 0, 2⟩ ∧
     (quat.normalized ⟨0, 0, 0, 2⟩).1.norm = 1 ∧
     (quat.normalize ⟨0, 0, 0, 2⟩).norm = 1) := by
  have h2 : quat.norm ⟨0, 0, 0, 2⟩ = 2 := by
    unfold quat.norm quat.norm_sq
    rw [show (0:ℝ) * 0 + 0 * 0 + 0 * 0 + 2 * 2 = 2 ^ 2 by norm_num]
    exact Real.sqrt_sq (by norm_num : (0:ℝ) ≤ 2)
  have h : quat.norm ⟨0, 0, 0, 2⟩ ≠ 0 := by
    rw [h2]
    norm_num
  exact ⟨h, C9_normalize _ h⟩

/-- Claim C8: `capsule3.distance(p)` equals
`max(0, distance-to-axis-segment - radius)`; the capsule with axis
(0,0,0)-(0,0,4) and radius 1 gives distance 2 at point (3,0,2); and the
distance is 0 for any contained point. -/
theorem C8_capsule_distance :
    (∀ (c : capsule3 ℝ) (p : vec3 ℝ),
      c.distance p = max 0 (c.axe.distance p - c.radius)) ∧
    (capsule3.distance ⟨⟨⟨0, 0, 0⟩, ⟨0, 0, 4⟩⟩, 1⟩ ⟨3, 0, 2⟩ = 2) ∧
    (∀ (c : capsule3 ℝ) (p : vec3 ℝ), c.contains p → c.distance p = 0) := by
  refine ⟨fun c p => rfl, ?_, ?_⟩
  · unfold capsule3.distance line3.distance
    norm_num [vec3.sub, vec3.add, vec3.dot, vec3.smul, vec3.length_sq, vec3.length]
    rw [show (9:ℝ) = 3 ^ 2 by norm_num, Real.sqrt_sq (by norm_num : (0:ℝ) ≤ 3)]
    norm_num
  · intro c p h
    unfold capsule3.contains at h
    unfold capsule3.distance
    exact max_eq_left (by linarith)

/-- Claim C8 witness: the contained point (0, 1/2, 2) of the concrete
capsule has distance 0. -/
theorem C8_witness :
    capsule3.contains ⟨⟨⟨0, 0, 0⟩, ⟨0, 0, 4⟩⟩, 1⟩ ⟨0, 1/2, 2⟩ ∧
    capsule3.distance ⟨⟨⟨0, 0, 0⟩, ⟨0, 0, 4⟩⟩, 1⟩ ⟨0, 1/2, 2⟩ = 0 := by
  have hc : capsule3.contains ⟨⟨⟨0, 0, 0⟩, ⟨0, 0, 4⟩⟩, 1⟩ ⟨0, 1/2, 2⟩ := by
    unfold capsule3.contains line3.distance
    norm_num [vec3.sub, vec3.add, vec3.dot, vec3.smul, vec3.length_sq, vec3.length]
    rw [show (4:ℝ) = 2 ^ 2 by norm_num, Real.sqrt_sq (by norm_num : (0:ℝ) ≤ 2)]
    norm_num
  exact ⟨hc, C8_capsule_distance.2.2 _ _ hc⟩


/-- Negating a quaternion preserves its squared norm. -/
theorem quat.norm_sq_neg (q : quat ℝ) : q.neg.norm_sq = q.norm_sq := by
  unfold quat.neg quat.norm_sq
  ring

/-- Dot product with a negated quaternion negates the dot product. -/
theorem quat.dot_neg (a b : quat ℝ) : a.dot b.neg = -(a.dot b) := by
  unfold quat.neg quat.dot
  ring

/-- Cauchy-Schwarz for the quaternion dot product (via the Lagrange
identity). -/
theorem quat.dot_sq_le (a b : quat ℝ) : (a.dot b) ^ 2 ≤ a.norm_sq * b.norm_sq := by
  unfold quat.dot quat.norm_sq
  nlinarith [sq_nonneg (a.x * b.y - a.y * b.x), sq_nonneg (a.x * b.z - a.z * b.x),
    sq_nonneg (a.x * b.w - a.w * b.x), sq_nonneg (a.y * b.z - a.z * b.y),
    sq_nonneg (a.y * b.w - a.w * b.y), sq_nonneg (a.z * b.w - a.w * b.z)]

/-- Two unit quaternions with dot product 1 are equal (equality case of
Cauchy-Schwarz). -/
theorem quat.unit_dot_one {a b : quat ℝ} (ha : a.norm_sq = 1) (hb : b.norm_sq = 1)
    (hd : a.dot b = 1) : b = a := by
  obtain ⟨ax, ay, az, aw⟩ := a
  obtain ⟨bx, by', bz, bw⟩ := b
  unfold quat.norm_sq at ha hb
  unfold quat.dot at hd
  simp only at ha hb hd
  have key : (ax - bx) ^ 2 + (ay - by') ^ 2 + (az - bz) ^ 2 + (aw - bw) ^ 2 = 0 := by
    linear_combination ha + hb - 2 * hd
  simp only [quat.mk.injEq]
  refine ⟨?_, ?_, ?_, ?_⟩ <;>
    nlinarith [key, sq_nonneg (ax - bx), sq_nonneg (ay - by'), sq_nonneg (az - bz),
      sq_nonneg (aw - bw)]

/-- A quaternion of squared norm 1 has norm 1. -/
theorem quat.norm_of_norm_sq_one {q : quat ℝ} (h : q.norm_sq = 1) : q.norm = 1 := by
  unfold quat.norm
  rw [h, Real.sqrt_one]

/-- A quaternion of norm 1 has squared norm 1. -/
theorem quat.norm_sq_of_norm_one {q : quat ℝ} (h : q.norm = 1) : q.norm_sq = 1 := by
  have hnn := q.norm_sq_nonneg
  unfold quat.norm at h
  calc q.norm_sq = Real.sqrt q.norm_sq ^ 2 := (Real.sq_sqrt hnn).symm
  _ = 1 := by rw [h]; norm_num

/-- Trigonometric identity behind slerp's norm preservation:
`sin²a + 2·sin a·sin b·cos(a+b) + sin²b = sin²(a+b)`. -/
theorem sin_sq_slerp (a b : ℝ) :
    Real.sin a ^ 2 + 2 * Real.sin a * Real.sin b * Real.cos (a + b) + Real.sin b ^ 2 =
      Real.sin (a + b) ^ 2 := by
  rw [Real.sin_add, Real.cos_add]
  have ha := Real.sin_sq_add_cos_sq a
  have hb := Real.sin_sq_add_cos_sq b
  linear_combination (-(Real.sin b ^ 2)) * ha + (-(Real.sin a ^ 2)) * hb

/-- The sine of the slerp angle is positive when the endpoints' dot product
lies in `[0,1)`. -/
theorem slerp_sin_pos {q1 e : quat ℝ} (hd0 : 0 ≤ q1.dot e) (hd1 : q1.dot e < 1) :
    0 < Real.sin (Real.arccos (q1.dot e)) := by
  have hθpos : 0 < Real.arccos (q1.dot e) := Real.arccos_pos.mpr hd1
  have hθle : Real.arccos (q1.dot e) ≤ Real.pi / 2 := Real.arccos_le_pi_div_two.mpr hd0
  exact Real.sin_pos_of_pos_of_lt_pi hθpos (by linarith [Real.pi_pos])

/-- The core slerp formula returns the first endpoint at parameter 0. -/
theorem slerpRaw_zero (q1 e : quat ℝ) (hd0 : 0 ≤ q1.dot e) (hd1 : q1.dot e < 1) :
    slerpRaw q1 e 0 = q1 := by
  have hsin := slerp_sin_pos hd0 hd1
  unfold slerpRaw quat.scale quat.add
  simp only [sub_zero, one_mul, zero_mul, Real.sin_zero, zero_div,
    div_self hsin.ne', mul_one, mul_zero, add_zero]

/-- The core slerp formula returns the second endpoint at parameter 1. -/
theorem slerpRaw_one (q1 e : quat ℝ) (hd0 : 0 ≤ q1.dot e) (hd1 : q1.dot e < 1) :
    slerpRaw q1 e 1 = e := by
  have hsin := slerp_sin_pos hd0 hd1
  unfold slerpRaw quat.scale quat.add
  simp only [sub_self, zero_mul, one_mul, Real.sin_zero, zero_div,
    div_self hsin.ne', mul_one, mul_zero, zero_add]

/-- The core slerp formula preserves unit squared norm for unit endpoints at
every parameter. -/
theorem slerpRaw_norm_sq (q1 e : quat ℝ) (h1 : q1.norm_sq = 1) (he : e.norm_sq = 1)
    (hd0 : 0 ≤ q1.dot e) (hd1 : q1.dot e < 1) (t : ℝ) :
    (slerpRaw q1 e t).norm_sq = 1 := by
  have hsin := slerp_sin_pos hd0 hd1
  have hcos : Real.cos (Real.arccos (q1.dot e)) = q1.dot e :=
    Real.cos_arccos (by linarith) (le_of_lt hd1)
  have key := sin_sq_slerp ((1 - t) * Real.arccos (q1.dot e)) (t * Real.arccos (q1.dot e))
  have hab : (1 - t) * Real.arccos (q1.dot e) + t * Real.arccos (q1.dot e) =
      Real.arccos (q1.dot e) := by ring
  rw [hab] at key
  have hdot : q1.dot e = q1.x * e.x + q1.y * e.y + q1.z * e.z + q1.w * e.w := rfl
  have hcos2 := hcos.trans hdot
  unfold quat.norm_sq at h1 he
  unfold slerpRaw quat.scale quat.add quat.norm_sq
  field_simp
  linear_combination (Real.sin ((1 - t) * Real.arccos (q1.dot e))) ^ 2 * h1 +
    (Real.sin (t * Real.arccos (q1.dot e))) ^ 2 * he +
    (-2 * Real.sin ((1 - t) * Real.arccos (q1.dot e)) *
      Real.sin (t * Real.arccos (q1.dot e))) * hcos2 + key

/-- Claim C6: for unit quaternions q1, q2, `slerp(q1,q2,0) = q1`,
`slerp(q1,q2,1) = q2` up to the shortest-path sign choice, and
`slerp(q1,q2,t)` has norm 1 for every t in `[0,1]`; the stateful
`quat_slerper` (`setup` then `interpolate`) computes the same function and
hence satisfies the same properties. -/
theorem C6_slerp :
    ∀ (q1 q2 : quat ℝ), q1.norm = 1 → q2.norm = 1 →
      slerp q1 q2 0 = q1 ∧
      (slerp q1 q2 1 = q2 ∨ slerp q1 q2 1 = q2.neg) ∧
      (∀ t : ℝ, 0 ≤ t → t ≤ 1 → (slerp q1 q2 t).norm = 1) ∧
      (∀ (s : quat_slerper) (t : ℝ), (s.setup q1 q2).interpolate t = slerp q1 q2 t) := by
  intro q1 q2 hn1 hn2
  have h1 : q1.norm_sq = 1 := quat.norm_sq_of_norm_one hn1
  have h2 : q2.norm_sq = 1 := quat.norm_sq_of_norm_one hn2
  have hcs : (q1.dot q2) ^ 2 ≤ 1 := by
    have h := quat.dot_sq_le q1 q2
    rw [h1, h2] at h
    linarith
  by_cases hneg : q1.dot q2 < 0
  · by_cases hpar : 1 ≤ -(q1.dot q2)
    · have hd : q1.dot q2 = -1 := by nlinarith
      have hdot : q1.dot q2.neg = 1 := by
        rw [quat.dot_neg, hd]
        norm_num
      have heq : q2.neg = q1 :=
        quat.unit_dot_one h1 (by rw [quat.norm_sq_neg]; exact h2) hdot
      have hs : ∀ t : ℝ, slerp q1 q2 t = q1 := by
        intro t
        unfold slerp
        rw [if_pos hneg, if_pos hpar]
      exact ⟨hs 0, Or.inr (by rw [hs 1, heq]),
        fun t _ _ => by rw [hs t]; exact hn1, fun s t => rfl⟩
    · have hd0 : 0 ≤ q1.dot q2.neg := by
        rw [quat.dot_neg]
        linarith
      have hd1 : q1.dot q2.neg < 1 := by
        rw [quat.dot_neg]
        push_neg at hpar
        linarith
      have he : (q2.neg).norm_sq = 1 := by rw [quat.norm_sq_neg]; exact h2
      have hs : ∀ t : ℝ, slerp q1 q2 t = slerpRaw q1 q2.neg t := by
        intro t
        unfold slerp
        rw [if_pos hneg, if_neg hpar]
      refine ⟨?_, ?_, ?_, fun s t => rfl⟩
      · rw [hs 0]
        exact slerpRaw_zero q1 q2.neg hd0 hd1
      · right
        rw [hs 1]
        exact slerpRaw_one q1 q2.neg hd0 hd1
      · intro t _ _
        rw [hs t]
        exact quat.norm_of_norm_sq_one (slerpRaw_norm_sq q1 q2.neg h1 he hd0 hd1 t)
  · by_cases hpar : 1 ≤ q1.dot q2
    · have hd : q1.dot q2 = 1 := by nlinarith
      have heq : q2 = q1 := quat.unit_dot_one h1 h2 hd
      have hs : ∀ t : ℝ, slerp q1 q2 t = q1 := by
        intro t
        unfold slerp
        rw [if_neg hneg, if_pos hpar]
      exact ⟨hs 0, Or.inl (by rw [hs 1, heq]),
        fun t _ _ => by rw [hs t]; exact hn1, fun s t => rfl⟩
    · have hd0 : 0 ≤ q1.dot q2 := not_lt.mp hneg
      have hd1 : q1.dot q2 < 1 := not_le.mp hpar
      have hs : ∀ t : ℝ, slerp q1 q2 t = slerpRaw q1 q2 t := by
        intro t
        unfold slerp
        rw [if_neg hneg, if_neg hpar]
      refine ⟨?_, ?_, ?_, fun s t => rfl⟩
      · rw [hs 0]
        exact slerpRaw_zero q1 q2 hd0 hd1
      · left
        rw [hs 1]
        exact slerpRaw_one q1 q2 hd0 hd1
      · intro t _ _
        rw [hs t]
        exact quat.norm_of_norm_sq_one (slerpRaw_norm_sq q1 q2 h1 h2 hd0 hd1 t)

/-- Claim C6 witness: the slerp laws instantiated at the concrete unit
quaternions (0,0,0,1) and (1,0,0,0) with parameter 1/2. -/
theorem C6_witness :
    quat.norm ⟨0, 0, 0, 1⟩ = 1 ∧
    slerp ⟨0, 0, 0, 1⟩ ⟨1, 0, 0, 0⟩ 0 = ⟨0, 0, 0, 1⟩ ∧
    (slerp ⟨0, 0, 0, 1⟩ ⟨1, 0, 0, 0⟩ (1/2)).norm = 1 := by
  have hn1 : quat.norm ⟨0, 0, 0, 1⟩ = 1 := by
    unfold quat.norm quat.norm_sq
    norm_num
  have hn2 : quat.norm ⟨1, 0, 0, 0⟩ = 1 := by
    unfold quat.norm quat.norm_sq
    norm_num
  have H := C6_slerp ⟨0, 0, 0, 1⟩ ⟨1, 0, 0, 0⟩ hn1 hn2
  exact ⟨hn1, H.1, H.2.2.1 (1/2) (by norm_num) (by norm_num)⟩

/-- Claim C4 witness: the bounds laws instantiated at the concrete in-range
update `set(1,2,42)` on the zero mat3. -/
theorem C4_witness :
    ((mat3.zero : mat3 ℚ).set 1 2 42).isOk = true ∧
    ((⟨0, 0, 0, 0, 0, 42, 0, 0, 0⟩ : mat3 ℚ).get 1 2 = .ok 42) := by
  have h : (mat3.zero : mat3 ℚ).set 1 2 42 = .ok ⟨0, 0, 0, 0, 0, 42, 0, 0, 0⟩ := by
    norm_num [mat3.set, mat3.zero]
  exact ⟨(C4_bounds.2.1 (mat3.zero : mat3 ℚ) 1 2 42).mpr (by norm_num),
    C4_bounds.2.2.1 (mat3.zero : mat3 ℚ) 1 2 42 _ h⟩

/-- Claim C5 witness: the inverse laws instantiated at the concrete
translation(5,10,15), whose inverse is translation(-5,-10,-15). -/
theorem C5_witness :
    (mat4.translation (5:ℚ) 10 15).inverse = .ok (mat4.translation (-5) (-10) (-15)) ∧
    (mat4.translation (5:ℚ) 10 15).mul (mat4.translation (-5) (-10) (-15)) =
      mat4.identity := by
  have h : (mat4.translation (5:ℚ) 10 15).inverse =
      .ok (mat4.translation (-5) (-10) (-15)) := by
    norm_num [mat4.inverse, mat4.translation, mat4.determinant, mat4.mk.injEq]
  exact ⟨h, ((@C5_inverse ℚ _ _).2.1 (mat4.translation 5 10 15)).2 _ h⟩
